import Mathlib

/-!
A verification development for an AI reverse proxy (Hono app in
`src/unnamed/part_000` plus the OAuth helper module
`src/claude-code-auth.ts`).  The TypeScript source is shallowly embedded:
pure computations become Lean functions, the token file becomes an explicit
`FileState` value threaded through the operations, the outcome of an
outbound HTTP call becomes an explicit parameter (`Option TokenJson`,
`FetchEvent`), and JavaScript string operations (`toLowerCase`,
`startsWith`, `split`, first-occurrence `replace`) are modelled by
executable functions on `List Char`.
-/

/-! ## JavaScript string primitives -/

/-- JS `String.prototype.toLowerCase` restricted to the ASCII range, which is
all that header names use.  Maps every character through `Char.toLower`. -/
def lowerStr (s : String) : String :=
  String.mk (s.data.map Char.toLower)

/-- Boolean prefix test on character lists (JS `String.prototype.startsWith`). -/
def isPrefixOfL : List Char → List Char → Bool
  | [], _ => true
  | _ :: _, [] => false
  | a :: as, b :: bs => a == b && isPrefixOfL as bs

/-- JS `s.startsWith(pre)`. -/
def strStartsWith (s pre : String) : Bool :=
  isPrefixOfL pre.data s.data

/-- Whether `pat` occurs as a contiguous sublist anywhere in `s`. -/
def occursIn (pat : List Char) : List Char → Bool
  | [] => isPrefixOfL pat []
  | a :: t => isPrefixOfL pat (a :: t) || occursIn pat t

/-- JS `String.prototype.replace` with a string pattern: replaces only the
FIRST occurrence of `pat` (scanning left to right), or returns the string
unchanged when `pat` does not occur. -/
def replaceFirstL (pat rep : List Char) : List Char → List Char
  | [] => if isPrefixOfL pat [] then rep else []
  | a :: t =>
    if isPrefixOfL pat (a :: t) then rep ++ List.drop pat.length (a :: t)
    else a :: replaceFirstL pat rep t

/-- JS `String.prototype.split` on a one-character separator: always returns a
non-empty list and preserves empty fields (`"a##b" ↦ ["a","","b"]`,
`"" ↦ [""]`). -/
def splitOnChar (c : Char) : List Char → List (List Char)
  | [] => [[]]
  | a :: as =>
    if a = c then [] :: splitOnChar c as
    else
      match splitOnChar c as with
      | [] => [[a]]
      | h :: t => (a :: h) :: t

/-- JS `code.split(sep)` for a one-character separator, on `String`. -/
def jsSplit (sep : Char) (s : String) : List String :=
  (splitOnChar sep s.data).map String.mk

/-! ## Fetch `Headers` model

A `Headers` object keeps at most one entry per (byte-lowercased) name;
`set` normalises the name to lower case and replaces any existing entry in
place, `delete` removes the entry, `get` looks the lowercased name up. -/

abbrev HeaderList := List (String × String)

/-- First value stored under exactly the key `k` (keys in a `HeaderList`
produced by `headersSet` are already lowercased). -/
def getEntry : HeaderList → String → Option String
  | [], _ => none
  | e :: t, k => if e.1 = k then some e.2 else getEntry t k

/-- Replace the entry with key `k` in place, or append a new entry. -/
def setEntry : HeaderList → String → String → HeaderList
  | [], k, v => [(k, v)]
  | e :: t, k, v => if e.1 = k then (k, v) :: t else e :: setEntry t k v

/-- `Headers.prototype.get`. -/
def headersGet (hs : HeaderList) (k : String) : Option String :=
  getEntry hs (lowerStr k)

/-- `Headers.prototype.set`. -/
def headersSet (hs : HeaderList) (k v : String) : HeaderList :=
  setEntry hs (lowerStr k) v

/-- `Headers.prototype.delete`. -/
def headersDelete (hs : HeaderList) (k : String) : HeaderList :=
  hs.filter (fun e => e.1 != lowerStr k)

/-! ## Header sanitizer (part_000 lines 84–95 and 231–242) -/

/-- The keep-condition of the sanitizing `forEach` loop, applied to the
lowercased header name `k`:  drop `cf-*`, `x-forwarded-*`, `cdn-*`,
`x-real-ip` and `host`, keep everything else. -/
def keepHeader (k : String) : Bool :=
  !(strStartsWith k "cf-") && !(strStartsWith k "x-forwarded-") &&
    !(strStartsWith k "cdn-") && k != "x-real-ip" && k != "host"

/-- One iteration of the `forEach` body: lowercase the name, test it, and
`set` the original (name, value) pair into the outbound `Headers`. -/
def sanitizeStep (hs : HeaderList) (kv : String × String) : HeaderList :=
  if keepHeader (lowerStr kv.1) then headersSet hs kv.1 kv.2 else hs

/-- The whole sanitizing loop starting from an empty outbound `Headers`
(the `/claude-code/proxy/*` branch, lines 83–95). -/
def sanitizeHeaders (inbound : List (String × String)) : HeaderList :=
  inbound.foldl sanitizeStep []

/-! ## Basic lemmas about the header model -/

theorem getEntry_setEntry_self (hs : HeaderList) (k v : String) :
    getEntry (setEntry hs k v) k = some v := by
  induction hs with
  | nil => simp [setEntry, getEntry]
  | cons e t ih =>
    by_cases h : e.1 = k
    · simp [setEntry, h, getEntry]
    · simp [setEntry, h, getEntry, ih]

theorem getEntry_setEntry_ne (hs : HeaderList) (k k' v : String) (h : k' ≠ k) :
    getEntry (setEntry hs k v) k' = getEntry hs k' := by
  have hk : ¬(k = k') := fun hk => h hk.symm
  induction hs with
  | nil => simp [setEntry, getEntry, hk]
  | cons e t ih =>
    by_cases he : e.1 = k
    · have hs1 : setEntry (e :: t) k v = (k, v) :: t := by simp [setEntry, he]
      have he' : ¬(e.1 = k') := by rw [he]; exact hk
      rw [hs1]
      simp [getEntry, hk, he']
    · have hs1 : setEntry (e :: t) k v = e :: setEntry t k v := by simp [setEntry, he]
      rw [hs1]
      by_cases he' : e.1 = k'
      · simp [getEntry, he']
      · simp [getEntry, he', ih]

theorem setEntry_of_getEntry_none (hs : HeaderList) (k v : String)
    (h : getEntry hs k = none) : setEntry hs k v = hs ++ [(k, v)] := by
  induction hs with
  | nil => simp [setEntry]
  | cons e t ih =>
    by_cases he : e.1 = k
    · simp [getEntry, he] at h
    · simp [getEntry, he] at h
      simp [setEntry, he, ih h]

theorem getEntry_append_of_none (l₁ l₂ : HeaderList) (k : String)
    (h : getEntry l₁ k = none) : getEntry (l₁ ++ l₂) k = getEntry l₂ k := by
  induction l₁ with
  | nil => simp
  | cons e t ih =>
    by_cases he : e.1 = k
    · simp [getEntry, he] at h
    · simp [getEntry, he] at h
      simp [getEntry, he, ih h]

theorem getEntry_eq_none_of_not_mem (l : HeaderList) (k : String)
    (h : k ∉ l.map Prod.fst) : getEntry l k = none := by
  induction l with
  | nil => rfl
  | cons e t ih =>
    simp only [List.map_cons, List.mem_cons] at h
    push_neg at h
    have hne : ¬(e.1 = k) := fun he => h.1 he.symm
    simp [getEntry, hne, ih h.2]

theorem getEntry_mem (l : HeaderList) (k v : String)
    (h : getEntry l k = some v) : (k, v) ∈ l := by
  induction l with
  | nil => simp [getEntry] at h
  | cons e t ih =>
    by_cases he : e.1 = k
    · simp [getEntry, he] at h
      have hev : e = (k, v) := by
        cases e with
        | mk a b => simp_all
      rw [hev]
      exact List.mem_cons_self _ _
    · simp [getEntry, he] at h
      exact List.mem_cons_of_mem _ (ih h)

theorem getEntry_of_mem_nodup (l : HeaderList) (k v : String)
    (hnod : (l.map Prod.fst).Nodup) (hm : (k, v) ∈ l) :
    getEntry l k = some v := by
  induction l with
  | nil => simp at hm
  | cons e t ih =>
    simp only [List.map_cons, List.nodup_cons] at hnod
    rcases List.mem_cons.mp hm with h | h
    · subst h
      simp [getEntry]
    · have hk : e.1 ≠ k := by
        intro he
        exact hnod.1 (he ▸ List.mem_map_of_mem Prod.fst h)
      simp [getEntry, hk, ih hnod.2 h]

/-! ## Characterizing the sanitizer -/

/-- Keep-test on an inbound (name, value) pair. -/
def keepKV (kv : String × String) : Bool :=
  keepHeader (lowerStr kv.1)

/-- Normalise an inbound pair the way `Headers.set` stores it. -/
def lowKV (kv : String × String) : String × String :=
  (lowerStr kv.1, kv.2)

theorem sanitize_foldl (inbound : List (String × String)) (acc : HeaderList)
    (hdisj : ∀ kv ∈ inbound, getEntry acc (lowerStr kv.1) = none)
    (hnod : (inbound.map (fun kv => lowerStr kv.1)).Nodup) :
    inbound.foldl sanitizeStep acc = acc ++ (inbound.filter keepKV).map lowKV := by
  induction inbound generalizing acc with
  | nil => simp
  | cons kv rest ih =>
    simp only [List.map_cons, List.nodup_cons] at hnod
    by_cases hkeep : keepKV kv = true
    · have hnone : getEntry acc (lowerStr kv.1) = none :=
        hdisj kv (List.mem_cons_self _ _)
      have hstep : sanitizeStep acc kv = acc ++ [(lowerStr kv.1, kv.2)] := by
        simp only [sanitizeStep, headersSet]
        rw [if_pos (by simpa [keepKV] using hkeep)]
        exact setEntry_of_getEntry_none _ _ _ hnone
      have hdisj' : ∀ kv' ∈ rest,
          getEntry (acc ++ [(lowerStr kv.1, kv.2)]) (lowerStr kv'.1) = none := by
        intro kv' hm
        have h1 : getEntry acc (lowerStr kv'.1) = none :=
          hdisj kv' (List.mem_cons_of_mem _ hm)
        rw [getEntry_append_of_none _ _ _ h1]
        have hne : ¬(lowerStr kv.1 = lowerStr kv'.1) := by
          intro he
          exact hnod.1 (he ▸ List.mem_map_of_mem (fun kv => lowerStr kv.1) hm)
        simp [getEntry, hne]
      rw [List.foldl_cons, hstep, ih _ hdisj' hnod.2]
      simp [List.filter_cons, hkeep, lowKV]
    · have hstep : sanitizeStep acc kv = acc := by
        simp only [sanitizeStep]
        rw [if_neg (by simpa [keepKV] using hkeep)]
      have hdisj' : ∀ kv' ∈ rest, getEntry acc (lowerStr kv'.1) = none :=
        fun kv' hm => hdisj kv' (List.mem_cons_of_mem _ hm)
      rw [List.foldl_cons, hstep, ih _ hdisj' hnod.2]
      simp [List.filter_cons, hkeep]

theorem sanitizeHeaders_eq (inbound : List (String × String))
    (hnod : (inbound.map (fun kv => lowerStr kv.1)).Nodup) :
    sanitizeHeaders inbound = (inbound.filter keepKV).map lowKV := by
  have h := sanitize_foldl inbound []
    (fun kv _ => rfl) hnod
  simpa [sanitizeHeaders] using h

theorem sanitizeHeaders_keys_nodup (inbound : List (String × String))
    (hnod : (inbound.map (fun kv => lowerStr kv.1)).Nodup) :
    ((sanitizeHeaders inbound).map Prod.fst).Nodup := by
  rw [sanitizeHeaders_eq inbound hnod]
  have hsub : ((inbound.filter keepKV).map fun kv => lowerStr kv.1).Sublist
      (inbound.map fun kv => lowerStr kv.1) :=
    (List.filter_sublist _).map _
  have : ((inbound.filter keepKV).map fun kv => lowerStr kv.1).Nodup :=
    hnod.sublist hsub
  simpa [Function.comp, lowKV] using this

/-- Claim C3: for every inbound header set (a Fetch `Headers` object, whose
names are unique up to case), the sanitized outbound header set excludes
exactly those headers whose lower-cased name starts with `cf-`,
`x-forwarded-` or `cdn-` or is exactly `x-real-ip` or `host`; it includes
every other header with its value preserved verbatim, and no header appears
twice under two different cases of its name. -/
theorem sanitizeHeaders_spec (inbound : List (String × String))
    (hnod : (inbound.map (fun kv => lowerStr kv.1)).Nodup) :
    (∀ k v, (k, v) ∈ inbound → keepHeader (lowerStr k) = false →
        headersGet (sanitizeHeaders inbound) k = none)
  ∧ (∀ k v, (k, v) ∈ inbound → keepHeader (lowerStr k) = true →
        headersGet (sanitizeHeaders inbound) k = some v)
  ∧ (∀ e ∈ sanitizeHeaders inbound, ∃ kv ∈ inbound,
        keepHeader (lowerStr kv.1) = true ∧ e = (lowerStr kv.1, kv.2))
  ∧ ((sanitizeHeaders inbound).map Prod.fst).Nodup := by
  have heq := sanitizeHeaders_eq inbound hnod
  have hkeys := sanitizeHeaders_keys_nodup inbound hnod
  refine ⟨?_, ?_, ?_, hkeys⟩
  · intro k v hm hban
    rw [heq]
    apply getEntry_eq_none_of_not_mem
    intro hmem
    rw [List.map_map] at hmem
    rcases List.mem_map.mp hmem with ⟨kv, hkv, hlow⟩
    have hkvin : kv ∈ inbound := (List.mem_filter.mp hkv).1
    have hkvkeep : keepKV kv = true := (List.mem_filter.mp hkv).2
    have hloweq : lowerStr kv.1 = lowerStr k := by
      simpa [lowKV, Function.comp] using hlow
    have : kv = (k, v) := List.inj_on_of_nodup_map hnod hkvin hm hloweq
    rw [this] at hkvkeep
    simp [keepKV, hban] at hkvkeep
  · intro k v hm hkeep
    have hout : (lowerStr k, v) ∈ sanitizeHeaders inbound := by
      rw [heq]
      have : (k, v) ∈ inbound.filter keepKV :=
        List.mem_filter.mpr ⟨hm, by simpa [keepKV] using hkeep⟩
      simpa [lowKV] using List.mem_map_of_mem lowKV this
    exact getEntry_of_mem_nodup _ _ _ hkeys hout
  · intro e he
    rw [heq] at he
    rcases List.mem_map.mp he with ⟨kv, hkv, hlow⟩
    exact ⟨kv, (List.mem_filter.mp hkv).1,
      by simpa [keepKV] using (List.mem_filter.mp hkv).2, hlow.symm⟩

/-- Witness for C3 at a concrete header set: the `CF-Connecting-IP` header is
removed and `Content-Type` survives with its value. -/
theorem sanitizeHeaders_spec_witness :
    headersGet (sanitizeHeaders
        [("Content-Type", "application/json"), ("CF-Connecting-IP", "1.2.3.4"),
         ("Host", "proxy.example"), ("Accept", "text/event-stream")])
      "CF-Connecting-IP" = none
  ∧ headersGet (sanitizeHeaders
        [("Content-Type", "application/json"), ("CF-Connecting-IP", "1.2.3.4"),
         ("Host", "proxy.example"), ("Accept", "text/event-stream")])
      "Content-Type" = some "application/json" :=
  ⟨(sanitizeHeaders_spec
      [("Content-Type", "application/json"), ("CF-Connecting-IP", "1.2.3.4"),
       ("Host", "proxy.example"), ("Accept", "text/event-stream")]
      (by decide)).1 "CF-Connecting-IP" "1.2.3.4" (by decide) (by decide),
   (sanitizeHeaders_spec
      [("Content-Type", "application/json"), ("CF-Connecting-IP", "1.2.3.4"),
       ("Host", "proxy.example"), ("Accept", "text/event-stream")]
      (by decide)).2.1 "Content-Type" "application/json" (by decide) (by decide)⟩

/-! ## Credential store and OAuth flow (`src/claude-code-auth.ts`) -/

/-- The fixed OAuth client identifier (claude-code-auth.ts line 5). -/
def CLIENT_ID : String := "9d1c250a-e61b-44d9-88ed-5944d1962f5e"

/-- The token record persisted in `claude-code-tokens.json`, mirroring the
object literal built by `storeTokens` (lines 33–38). -/
structure TokenRecord where
  refresh : String
  access : String
  expires : Int
  updated_at : String
deriving DecidableEq, Repr

/-- State of the token file: `none` when the file does not exist.  The file
system and the JSON codec are external collaborators, so the file is
modelled at the record level. -/
abbrev FileState := Option TokenRecord

/-- `storeTokens(refresh, access, expires)` (lines 32–40): a total overwrite
of the token file.  `ts` is the `new Date().toISOString()` timestamp. -/
def storeTokens (r a : String) (e : Int) (ts : String) : FileState :=
  some { refresh := r, access := a, expires := e, updated_at := ts }

/-- `getStoredTokens()` (lines 43–49): `null` when the file is missing,
otherwise the parsed record. -/
def getStoredTokens (fs : FileState) : Option TokenRecord :=
  fs

/-- The provider's token-endpoint success payload (the fields the code
reads from `await result.json()`). -/
structure TokenJson where
  refresh_token : String
  access_token : String
  expires_in : Int
deriving DecidableEq, Repr

/-- The JSON body of the token-exchange POST (lines 58–65).  JS
`splits[1]` is `undefined` when the code contains no `#`, and
`JSON.stringify` then omits the key entirely; an absent field is `none`. -/
structure ExchangeBody where
  code : Option String
  state : Option String
  grant_type : String
  client_id : String
  redirect_uri : String
  code_verifier : String
deriving DecidableEq, Repr

/-- The request body `exchange` sends, built from `code.split("#")`. -/
def exchangeBody (code verifier : String) : ExchangeBody :=
  { code := (jsSplit '#' code).get? 0
    state := (jsSplit '#' code).get? 1
    grant_type := "authorization_code"
    client_id := CLIENT_ID
    redirect_uri := "https://console.anthropic.com/oauth/code/callback"
    code_verifier := verifier }

/-- Result type of `exchange`: `{type:"failed"}` or
`{type:"success", message:"Tokens stored successfully"}`. -/
inductive ExchangeResult where
  | failed
  | success
deriving DecidableEq, Repr

/-- `exchange(code, verifier)` (lines 51–84).  The provider's response is an
explicit parameter: `none` for a non-success (`!result.ok`) HTTP status,
`some j` for a success payload.  Returns the request body it sent, the
result value, and the token-file state after the call. -/
def exchange (code verifier : String) (resp : Option TokenJson) (now : Int)
    (ts : String) (fs : FileState) : ExchangeBody × ExchangeResult × FileState :=
  let body := exchangeBody code verifier
  match resp with
  | none => (body, .failed, fs)
  | some j =>
    (body, .success,
      storeTokens j.refresh_token j.access_token (now + j.expires_in * 1000) ts)

/-! ## Lemmas about `split` -/

theorem splitOnChar_of_not_mem (c : Char) (l : List Char) (h : c ∉ l) :
    splitOnChar c l = [l] := by
  induction l with
  | nil => rfl
  | cons a t ih =>
    have hne : ¬(a = c) := fun he => h (he ▸ List.mem_cons_self _ _)
    have ht : c ∉ t := fun hm => h (List.mem_cons_of_mem _ hm)
    simp [splitOnChar, hne, ih ht]

theorem jsSplit_of_not_mem (c : Char) (s : String) (h : c ∉ s.data) :
    jsSplit c s = [s] := by
  simp [jsSplit, splitOnChar_of_not_mem c s.data h]

/-- Claim C6: a non-success provider response makes `exchange` return
`{type:"failed"}` and leaves the token file untouched; a success response
writes a record whose expiry is `now + expires_in * 1000`. -/
theorem exchange_store_spec (code verifier : String) (now : Int) (ts : String)
    (fs : FileState) (j : TokenJson) :
    exchange code verifier none now ts fs = (exchangeBody code verifier, .failed, fs)
  ∧ exchange code verifier (some j) now ts fs
      = (exchangeBody code verifier, .success,
          some { refresh := j.refresh_token, access := j.access_token,
                 expires := now + j.expires_in * 1000, updated_at := ts }) :=
  ⟨rfl, rfl⟩

/-- Counterexample for C7 as stated: calling `exchange` with the code
`"abc"` (no `#`) sends NO state field at all (`splits[1]` is `undefined`
and `JSON.stringify` drops it); the state sent is not the empty string. -/
theorem exchange_no_hash_cex :
    ¬((exchange "abc" "v" none 0 "ts" none).1.state = some "") := by
  decide

/-- Claim C7 (amended): for every call to `exchange` with a code containing
no `#`, the whole string is sent as the authorization code, and no state
field is sent (the `state` entry is absent from the request body). -/
theorem exchange_no_hash_spec (code verifier : String) (resp : Option TokenJson)
    (now : Int) (ts : String) (fs : FileState) (h : '#' ∉ code.data) :
    (exchange code verifier resp now ts fs).1.code = some code
  ∧ (exchange code verifier resp now ts fs).1.state = none := by
  have hbody : (exchange code verifier resp now ts fs).1 = exchangeBody code verifier := by
    cases resp <;> rfl
  rw [hbody]
  have hsplit : jsSplit '#' code = [code] := jsSplit_of_not_mem _ _ h
  constructor
  · simp [exchangeBody, hsplit]
  · simp [exchangeBody, hsplit]

/-- Witness for C7 (amended) at the concrete code `"abc"`. -/
theorem exchange_no_hash_witness :
    (exchange "abc" "v" none 0 "ts" none).1.code = some "abc"
  ∧ (exchange "abc" "v" none 0 "ts" none).1.state = none :=
  exchange_no_hash_spec "abc" "v" none 0 "ts" none (by decide)

/-- Claim C9: saving a credential record and then loading returns a record
whose refresh, access and expiry fields equal what was saved. -/
theorem store_roundtrip_spec (r a : String) (e : Int) (ts : String) :
    getStoredTokens (storeTokens r a e ts)
      = some { refresh := r, access := a, expires := e, updated_at := ts } :=
  rfl

/-! ## Authenticated-upstream gate (`/claude-code/proxy/*`, part_000 lines 43–112) -/

/-- What the handler decides before (or instead of) forwarding: a JSON error
response with its status and error message, or a forward carrying the access
token used for the `Bearer` header. -/
inductive ProxyOutcome where
  | errorResponse (status : Nat) (error : String)
  | forward (accessUsed : String)
deriving DecidableEq, Repr

/-- The credential-handling prefix of the `/claude-code/proxy/*` handler
(lines 44–77).  `fs` is the token-file state, `now` is `Date.now()`,
`ts` the ISO timestamp a refresh would store, and `resp` the provider's
response to the refresh POST (`none` = non-ok status; the refresh call is
only issued when the token is missing or expired).  Returns the outcome,
the token-file state afterwards, and how many refresh calls were made.
The JS test is `!auth.access || auth.expires < Date.now()`; a missing or
empty access token is falsy. -/
def claudeProxyAuth (fs : FileState) (now : Int) (ts : String)
    (resp : Option TokenJson) : ProxyOutcome × FileState × Nat :=
  match getStoredTokens fs with
  | none => (.errorResponse 401 "No authentication found. Please authorize first.", fs, 0)
  | some auth =>
    if auth.access = "" ∨ auth.expires < now then
      match resp with
      | none => (.errorResponse 401 "Failed to refresh token. Please re-authorize.", fs, 1)
      | some j =>
        (.forward j.access_token,
          storeTokens j.refresh_token j.access_token (now + j.expires_in * 1000) ts, 1)
    else (.forward auth.access, fs, 0)

/-- Counterexample for C1 as stated: a stored credential with a present
access token and `expiresAtEpochMs = now` (so `expiresAtEpochMs <= now`)
triggers ZERO refresh calls, because the code tests `auth.expires <
Date.now()` strictly. -/
theorem claudeProxy_refresh_cex :
    ¬((claudeProxyAuth (some ⟨"r", "tok", 5, "t"⟩) 5 "t" none).2.2 = 1) := by
  decide

/-- Claim C1 (amended): a stored credential with a present access token and
`expiresAtEpochMs` strictly before `now` triggers exactly one refresh call;
with `expiresAtEpochMs >= now` it triggers zero refresh calls and forwards
with the stored access token. -/
theorem claudeProxy_refresh_spec (auth : TokenRecord) (now : Int) (ts : String)
    (resp : Option TokenJson) (hacc : auth.access ≠ "") :
    (auth.expires < now → (claudeProxyAuth (some auth) now ts resp).2.2 = 1)
  ∧ (now ≤ auth.expires →
      claudeProxyAuth (some auth) now ts resp = (.forward auth.access, some auth, 0)) := by
  constructor
  · intro hlt
    cases resp <;> simp [claudeProxyAuth, getStoredTokens, hlt]
  · intro hge
    have hnot : ¬(auth.access = "" ∨ auth.expires < now) := by
      push_neg
      exact ⟨hacc, hge⟩
    simp [claudeProxyAuth, getStoredTokens, hnot]

/-- Witness for C1 (amended): an expired credential (`expires = 0 < now = 1`)
is refreshed exactly once; a live credential (`expires = now = 5`) is not
refreshed and is forwarded as stored. -/
theorem claudeProxy_refresh_witness :
    (claudeProxyAuth (some ⟨"r", "tok", 0, "t"⟩) 1 "t2" none).2.2 = 1
  ∧ claudeProxyAuth (some ⟨"r", "tok", 5, "t"⟩) 5 "t2" none
      = (.forward "tok", some ⟨"r", "tok", 5, "t"⟩, 0) :=
  ⟨(claudeProxy_refresh_spec ⟨"r", "tok", 0, "t"⟩ 1 "t2" none (by decide)).1 (by decide),
   (claudeProxy_refresh_spec ⟨"r", "tok", 5, "t"⟩ 5 "t2" none (by decide)).2 (by decide)⟩

/-- Claim C2: with no stored credential the handler returns the 401 JSON
error and writes nothing; when a needed refresh gets a non-success provider
response it returns the 401 JSON error and the stored record is unchanged. -/
theorem claudeProxy_failure_spec (fs : FileState) (now : Int) (ts : String)
    (resp : Option TokenJson) :
    (fs = none → claudeProxyAuth fs now ts resp
        = (.errorResponse 401 "No authentication found. Please authorize first.", fs, 0))
  ∧ (∀ auth : TokenRecord, fs = some auth → (auth.access = "" ∨ auth.expires < now) →
      claudeProxyAuth fs now ts none
        = (.errorResponse 401 "Failed to refresh token. Please re-authorize.", fs, 1)) := by
  constructor
  · intro h
    subst h
    rfl
  · intro auth h href
    subst h
    simp [claudeProxyAuth, getStoredTokens, href]

/-- Witness for C2: both failure branches at concrete inputs. -/
theorem claudeProxy_failure_witness :
    claudeProxyAuth none 0 "t" none
      = (.errorResponse 401 "No authentication found. Please authorize first.", none, 0)
  ∧ claudeProxyAuth (some ⟨"r", "", 99, "t"⟩) 0 "t" none
      = (.errorResponse 401 "Failed to refresh token. Please re-authorize.",
          some ⟨"r", "", 99, "t"⟩, 1) :=
  ⟨(claudeProxy_failure_spec none 0 "t" none).1 rfl,
   (claudeProxy_failure_spec (some ⟨"r", "", 99, "t"⟩) 0 "t" none).2
     ⟨"r", "", 99, "t"⟩ rfl (Or.inl rfl)⟩

/-! ## Managed-branch outbound headers (lines 83–99) -/

/-- The fixed `anthropic-beta` capability header value (line 98). -/
def anthropicBeta : String :=
  "oauth-2025-04-20,claude-code-20250219,interleaved-thinking-2025-05-14,fine-grained-tool-streaming-2025-05-14"

/-- Outbound headers of the managed-upstream branch: sanitize the inbound set,
then `set` the bearer authorization and the capability header and `delete`
any API-key header (lines 97–99). -/
def buildClaudeHeaders (inbound : List (String × String)) (access : String) : HeaderList :=
  headersDelete
    (headersSet
      (headersSet (sanitizeHeaders inbound) "authorization" ("Bearer " ++ access))
      "anthropic-beta" anthropicBeta)
    "x-api-key"

theorem getEntry_filter_ne (l : HeaderList) (k k' : String) (h : k' ≠ k) :
    getEntry (l.filter (fun e => e.1 != k)) k' = getEntry l k' := by
  induction l with
  | nil => rfl
  | cons e t ih =>
    by_cases he : e.1 = k
    · have hk : ¬(e.1 = k') := by rw [he]; exact fun hk => h hk.symm
      have hfil : List.filter (fun e => e.1 != k) (e :: t)
          = List.filter (fun e => e.1 != k) t := by
        simp [List.filter_cons, he]
      rw [hfil, ih]
      simp [getEntry, hk]
    · have hfil : List.filter (fun e => e.1 != k) (e :: t)
          = e :: List.filter (fun e => e.1 != k) t := by
        simp [List.filter_cons, he]
      rw [hfil]
      by_cases he' : e.1 = k'
      · simp [getEntry, he']
      · simp [getEntry, he', ih]

theorem getEntry_filter_self (l : HeaderList) (k : String) :
    getEntry (l.filter (fun e => e.1 != k)) k = none := by
  induction l with
  | nil => rfl
  | cons e t ih =>
    by_cases he : e.1 = k
    · simp [he, ih]
    · simp [getEntry, he, ih]

/-- Claim C8: whatever the inbound request carried, the managed-branch
outbound header set has `authorization = "Bearer " ++ access`, the fixed
`anthropic-beta` capability value, and no `x-api-key` header. -/
theorem claudeHeaders_spec (inbound : List (String × String)) (access : String) :
    headersGet (buildClaudeHeaders inbound access) "authorization"
      = some ("Bearer " ++ access)
  ∧ headersGet (buildClaudeHeaders inbound access) "anthropic-beta" = some anthropicBeta
  ∧ headersGet (buildClaudeHeaders inbound access) "x-api-key" = none := by
  have hauth : lowerStr "authorization" = "authorization" := by decide
  have hbeta : lowerStr "anthropic-beta" = "anthropic-beta" := by decide
  have hapi : lowerStr "x-api-key" = "x-api-key" := by decide
  refine ⟨?_, ?_, ?_⟩
  · rw [headersGet, hauth, buildClaudeHeaders, headersDelete, hapi,
      getEntry_filter_ne _ _ _ (by decide), headersSet, hbeta, headersSet, hauth,
      getEntry_setEntry_ne _ _ _ _ (by decide), getEntry_setEntry_self]
  · rw [headersGet, hbeta, buildClaudeHeaders, headersDelete, hapi,
      getEntry_filter_ne _ _ _ (by decide), headersSet, hbeta,
      getEntry_setEntry_self]
  · rw [headersGet, hapi, buildClaudeHeaders, headersDelete, hapi,
      getEntry_filter_self]

/-! ## Bounded-time forwarding (`fetchWithTimeout`, part_000 lines 114–143) -/

/-- The upstream response as far as the timeout wrapper is concerned. -/
structure UpstreamResp where
  status : Nat
  body : String
deriving DecidableEq, Repr

/-- The timeout passed at both call sites (lines 105 and 253). -/
def forwardTimeoutMs : Nat := 60000

/-- Which event settles the race inside `fetchWithTimeout`: the outbound
call settles first (resolving with a response or rejecting with a network
error), or the timer fires first, in which case `controller.abort()` is
invoked and the in-flight call rejects with `signal.aborted = true`. -/
inductive FetchEvent where
  | resolved (r : UpstreamResp)
  | rejected (err : String)
  | timerFired

/-- The `catch` branch (lines 133–142): a rejection is converted to the
synthetic 504 response exactly when the controller's signal was aborted,
and is re-thrown otherwise. -/
def fetchCatch (signalAborted : Bool) (err : String) : Except String UpstreamResp :=
  if signalAborted then .ok { status := 504, body := "Request timeout" } else .error err

/-- `fetchWithTimeout` as a function of the race's outcome.  The `Bool`
records whether the outbound call was aborted. -/
def fetchWithTimeout : FetchEvent → Except String UpstreamResp × Bool
  | .resolved r => (.ok r, false)
  | .rejected err => (fetchCatch false err, false)
  | .timerFired => (fetchCatch true "AbortError", true)

/-- Claim C5: when the timeout elapses before the upstream responds, the
in-flight call is aborted and the caller receives a synthetic 504 response
with body "Request timeout"; any other network-level failure is re-thrown
unchanged; the configured timeout is 60 seconds. -/
theorem fetchWithTimeout_spec :
    fetchWithTimeout .timerFired
      = (.ok { status := 504, body := "Request timeout" }, true)
  ∧ (∀ err, fetchWithTimeout (.rejected err) = (.error err, false))
  ∧ forwardTimeoutMs = 60000 :=
  ⟨rfl, fun _ => rfl, rfl⟩

/-! ## Routing table (part_000 lines 145–192) and its middleware (218–263) -/

/-- One entry of the static `proxies` table. -/
structure RouteEntry where
  pathSegment : String
  target : String
  orHostname : Option String := none
deriving DecidableEq, Repr

/-- The static routing table, in source order. -/
def proxies : List RouteEntry :=
  [ { pathSegment := "generativelanguage", orHostname := some "gooai.chatkit.app",
      target := "https://generativelanguage.googleapis.com" },
    { pathSegment := "groq", target := "https://api.groq.com" },
    { pathSegment := "anthropic", target := "https://api.anthropic.com" },
    { pathSegment := "pplx", target := "https://api.perplexity.ai" },
    { pathSegment := "openai", target := "https://api.openai.com" },
    { pathSegment := "mistral", target := "https://api.mistral.ai" },
    { pathSegment := "openrouter/api", target := "https://openrouter.ai/api" },
    { pathSegment := "openrouter", target := "https://openrouter.ai/api" },
    { pathSegment := "xai", target := "https://api.x.ai" },
    { pathSegment := "cerebras", target := "https://api.cerebras.ai" },
    { pathSegment := "googleapis-cloudcode-pa", target := "https://cloudcode-pa.googleapis.com" } ]

/-- The match predicate of `proxies.find` (lines 221–225): the path starts
with `/{pathSegment}/`, or the entry has an alternate hostname equal to the
inbound hostname. -/
def routeMatches (hostname pathname : String) (p : RouteEntry) : Bool :=
  strStartsWith pathname ("/" ++ p.pathSegment ++ "/") ||
    (match p.orHostname with
     | some h => hostname == h
     | none => false)

/-- `proxies.find(...)`: first matching entry. -/
def findProxy (hostname pathname : String) : Option RouteEntry :=
  proxies.find? (routeMatches hostname pathname)

/-- The path rewrite of line 244–247:
`url.pathname.replace("/" + pathSegment + "/", "/")` — JS `replace` with a
string pattern, so only the first occurrence is replaced. -/
def rewritePath (seg pathname : String) : String :=
  String.mk (replaceFirstL ("/" ++ seg ++ "/").data "/".data pathname.data)

/-- Resolved target URL of the routing-table middleware:
`{target}{rewritten pathname}{search}`, or `none` when no entry matches. -/
def routeTargetUrl (hostname pathname search : String) : Option String :=
  (findProxy hostname pathname).map
    (fun p => p.target ++ rewritePath p.pathSegment pathname ++ search)

/-! ## Lemmas about first-occurrence replacement -/

theorem isPrefixOfL_append (pat rest : List Char) :
    isPrefixOfL pat (pat ++ rest) = true := by
  induction pat with
  | nil => rfl
  | cons a t ih => simp [isPrefixOfL, ih]

theorem replaceFirstL_leading (pat rep s : List Char)
    (h : isPrefixOfL pat s = true) :
    replaceFirstL pat rep s = rep ++ List.drop pat.length s := by
  cases s with
  | nil => simp [replaceFirstL, h]
  | cons a t => simp [replaceFirstL, h]

theorem replaceFirstL_of_not_occurs (pat rep s : List Char)
    (h : occursIn pat s = false) :
    replaceFirstL pat rep s = s := by
  induction s with
  | nil =>
    simp only [occursIn] at h
    simp [replaceFirstL, h]
  | cons a t ih =>
    simp only [occursIn, Bool.or_eq_false_iff] at h
    simp [replaceFirstL, h.1, ih h.2]

theorem replaceFirstL_first_occ (pat rep a b : List Char)
    (h : ∀ i, i < a.length → isPrefixOfL pat (List.drop i (a ++ pat ++ b)) = false) :
    replaceFirstL pat rep (a ++ pat ++ b) = a ++ rep ++ b := by
  induction a with
  | nil =>
    simp only [List.nil_append]
    rw [replaceFirstL_leading _ _ _ (isPrefixOfL_append pat b)]
    simp [List.drop_left]
  | cons c a' ih =>
    have h0 : isPrefixOfL pat (c :: (a' ++ pat ++ b)) = false := by
      have := h 0 (by simp)
      simpa using this
    have hrest : ∀ i, i < a'.length →
        isPrefixOfL pat (List.drop i (a' ++ pat ++ b)) = false := by
      intro i hi
      have := h (i + 1) (by simpa using Nat.succ_lt_succ hi)
      simpa using this
    show replaceFirstL pat rep (c :: (a' ++ pat ++ b)) = c :: (a' ++ rep ++ b)
    rw [replaceFirstL, h0]
    simpa [List.append_assoc] using ih hrest

theorem strMk_append (a b : List Char) :
    String.mk (a ++ b) = String.mk a ++ String.mk b := rfl

theorem strMk_data (s : String) : String.mk s.data = s := rfl

/-- Claim C4: when the routing middleware resolves a request via an entry's
`pathSegment` prefix, the target URL is the entry's base URL, followed by
the inbound path with the leading `/{pathSegment}/` replaced by `/`,
followed by the unchanged query string. -/
theorem routeTarget_prefix_spec (hostname pathname search : String) (p : RouteEntry)
    (hfind : findProxy hostname pathname = some p)
    (hpre : strStartsWith pathname ("/" ++ p.pathSegment ++ "/") = true) :
    routeTargetUrl hostname pathname search
      = some (p.target ++
          ("/" ++ String.mk
            (List.drop ("/" ++ p.pathSegment ++ "/").data.length pathname.data)) ++
          search) := by
  have hpre' : isPrefixOfL ("/" ++ p.pathSegment ++ "/").data pathname.data = true := hpre
  have h2 := replaceFirstL_leading ("/" ++ p.pathSegment ++ "/").data "/".data
    pathname.data hpre'
  unfold routeTargetUrl
  rw [hfind]
  show some (p.target ++ rewritePath p.pathSegment pathname ++ search) = _
  rw [rewritePath, h2, strMk_append]

/-- Witness for C4: the spec's concrete instance — the `groq` entry and
inbound path `/groq/v1/chat` resolve to `https://api.groq.com/v1/chat`
with the query string appended unchanged. -/
theorem routeTarget_prefix_witness :
    routeTargetUrl "example.com" "/groq/v1/chat" "?q=1"
      = some "https://api.groq.com/v1/chat?q=1" := by
  have h := routeTarget_prefix_spec "example.com" "/groq/v1/chat" "?q=1"
    { pathSegment := "groq", target := "https://api.groq.com", orHostname := none }
    (by decide) (by decide)
  exact h.trans (by decide)

/-- Claim C10: a request matched through the alternate hostname
`gooai.chatkit.app` resolves against the `generativelanguage` entry, and the
path rewrite replaces the FIRST occurrence of `/generativelanguage/`
anywhere in the path with `/` — and leaves the path unchanged when that
substring is absent — rather than stripping only a leading prefix. -/
theorem routeHostnameMatch_spec (pathname search : String) :
    (routeTargetUrl "gooai.chatkit.app" pathname search
      = some ("https://generativelanguage.googleapis.com"
          ++ rewritePath "generativelanguage" pathname ++ search))
  ∧ (occursIn "/generativelanguage/".data pathname.data = false →
      rewritePath "generativelanguage" pathname = pathname)
  ∧ (∀ a b : List Char, pathname.data = a ++ "/generativelanguage/".data ++ b →
      (∀ i, i < a.length →
        isPrefixOfL "/generativelanguage/".data (List.drop i pathname.data) = false) →
      rewritePath "generativelanguage" pathname = String.mk (a ++ "/".data ++ b)) := by
  refine ⟨?_, ?_, ?_⟩
  · have hmatch : routeMatches "gooai.chatkit.app" pathname
        { pathSegment := "generativelanguage", orHostname := some "gooai.chatkit.app",
          target := "https://generativelanguage.googleapis.com" } = true := by
      simp [routeMatches]
    have hfind : findProxy "gooai.chatkit.app" pathname
        = some { pathSegment := "generativelanguage",
                 orHostname := some "gooai.chatkit.app",
                 target := "https://generativelanguage.googleapis.com" } := by
      unfold findProxy proxies
      exact List.find?_cons_of_pos _ hmatch
    unfold routeTargetUrl
    rw [hfind]
    rfl
  · intro h
    have hpat : ("/" ++ ("generativelanguage" : String) ++ "/").data
        = "/generativelanguage/".data := rfl
    rw [rewritePath, hpat, replaceFirstL_of_not_occurs _ _ _ h]
  · intro a b hsplit hfirst
    have hpat : ("/" ++ ("generativelanguage" : String) ++ "/").data
        = "/generativelanguage/".data := rfl
    rw [hsplit] at hfirst
    rw [rewritePath, hpat, hsplit,
      replaceFirstL_first_occ "/generativelanguage/".data "/".data a b hfirst]

/-- Witness for C10: with hostname `gooai.chatkit.app` and path
`/x/generativelanguage/y` (which does not start with
`/generativelanguage/`), the mid-path occurrence is replaced, giving
`/x/y` on the mapped upstream base. -/
theorem routeHostnameMatch_witness :
    routeTargetUrl "gooai.chatkit.app" "/x/generativelanguage/y" ""
      = some "https://generativelanguage.googleapis.com/x/y" := by
  have h := routeHostnameMatch_spec "/x/generativelanguage/y" ""
  have h3 := h.2.2 "/x".data "y".data (by decide) (by decide)
  rw [h.1, h3]
  decide
